import Mathlib

/-!
# Dispensary Hub — verification of the transactional core

Shallow embedding of `backend/api/main.py` (FastAPI + sqlite).  Tables become
lists of records, a request handler becomes a function from a `DB` state to an
`Except ApiError` result.  The `db_conn` context manager commits only when the
handler body finishes without raising; an `HTTPException` (or a sqlite
`IntegrityError` from a violated UNIQUE constraint) aborts the transaction and
rolls back, so an error result carries no new state: `Except.error e` models
"HTTP error response, database unchanged".  Violated UNIQUE constraints from
the schema in `init_db` surface as a generic internal failure
(`ApiError.InternalError`), distinct from the domain taxonomy.
`REAL` quantities are modelled as `Int` (every claim uses integral quantities
and only sign / negation / comparison with zero, on which the two agree).
UUID primary-key ids are supplied as explicit arguments; their freshness is a
hypothesis where a theorem needs it.
-/

namespace DispensaryHub

/-- Error taxonomy: each `HTTPException` site in `main.py` mapped to the
domain error it encodes; `InternalError` is an uncaught store failure
(e.g. sqlite `IntegrityError` on a UNIQUE column). -/
inductive ApiError where
  | NotFound
  | InvalidQuantity
  | IneligibleMember
  | EmptyOrder
  | AlreadyFinalized
  | InternalError
deriving DecidableEq

inductive MemberStatus where
  | PENDING
  | VERIFIED
  | REJECTED
deriving DecidableEq

/-- `MemberVerifyIn.outcome` is constrained by the pydantic pattern
`^(VERIFIED|REJECTED)$`, so the handler only ever sees these two values. -/
inductive VerifyOutcome where
  | VERIFIED
  | REJECTED
deriving DecidableEq

def VerifyOutcome.toStatus : VerifyOutcome → MemberStatus
  | .VERIFIED => .VERIFIED
  | .REJECTED => .REJECTED

inductive MovementType where
  | RECEIVE
  | ADJUST
  | WASTE
  | DISPENSE
deriving DecidableEq

inductive OrderStatus where
  | PLACED
  | COMPLETED
deriving DecidableEq

/-- A UTC instant, as far as the code observes one: `datetime.now(timezone.utc)`
broken into the components that `isoformat` and `strftime` render. -/
structure DateTime where
  year : Nat
  month : Nat
  day : Nat
  hour : Nat
  minute : Nat
  second : Nat
  micro : Nat
deriving DecidableEq

/-- Zero-padded decimal rendering, as `strftime`/`isoformat` produce. -/
def padNum (width n : Nat) : String :=
  let s := toString n
  String.mk (List.replicate (width - s.length) '0') ++ s

/-- `strftime('%Y%m%d%H%M%S')`: second resolution, microseconds dropped. -/
def DateTime.compact (t : DateTime) : String :=
  padNum 4 t.year ++ padNum 2 t.month ++ padNum 2 t.day ++
    padNum 2 t.hour ++ padNum 2 t.minute ++ padNum 2 t.second

/-- `utc_now()`: `datetime.now(timezone.utc).isoformat()`. -/
def DateTime.iso (t : DateTime) : String :=
  padNum 4 t.year ++ "-" ++ padNum 2 t.month ++ "-" ++ padNum 2 t.day ++ "T" ++
    padNum 2 t.hour ++ ":" ++ padNum 2 t.minute ++ ":" ++ padNum 2 t.second ++
    "." ++ padNum 6 t.micro ++ "+00:00"

structure Member where
  id : String
  member_number : String
  first_name : String
  last_name : String
  date_of_birth : Option String
  phone : Option String
  email : Option String
  status : MemberStatus
  created_at : String
  updated_at : String
deriving DecidableEq

structure MemberVerification where
  id : String
  member_id : String
  outcome : VerifyOutcome
  verified_by_staff_id : String
  notes : Option String
  document_ref : Option String
  verified_at : String
  created_at : String
deriving DecidableEq

structure Supplier where
  id : String
  code : String
  name : String
  contact_name : Option String
  contact_email : Option String
  contact_phone : Option String
  address : Option String
  is_active : Bool
  created_at : String
  updated_at : String
deriving DecidableEq

structure Product where
  id : String
  sku : String
  name : String
  description : Option String
  unit_of_measure : String
  is_active : Bool
  created_at : String
  updated_at : String
deriving DecidableEq

structure InventoryMovement where
  id : String
  product_id : String
  movement_type : MovementType
  quantity : Int
  reason : Option String
  recorded_by_staff_id : String
  occurred_at : String
  created_at : String
deriving DecidableEq

structure Order where
  id : String
  member_id : String
  order_number : String
  status : OrderStatus
  ordered_by_staff_id : String
  ordered_at : String
  completed_at : Option String
  notes : Option String
  created_at : String
  updated_at : String
deriving DecidableEq

structure OrderItem where
  id : String
  order_id : String
  product_id : String
  quantity : Int
  unit_price : Int
  created_at : String
deriving DecidableEq

/-- The structured content of `audit_events.event_data` (the code stores it as
`json.dumps` of exactly these three entries). -/
structure AuditSnapshot where
  status_code : Nat
  query : List (String × String)
  body : String
deriving DecidableEq

structure AuditEvent where
  id : String
  actor_type : String
  actor_id : Option String
  event_type : String
  entity_type : String
  entity_id : String
  event_data : AuditSnapshot
  occurred_at : String
  created_at : String
deriving DecidableEq

/-- The sqlite database of `init_db`, one list per table, insertion order. -/
structure DB where
  members : List Member
  member_verifications : List MemberVerification
  suppliers : List Supplier
  products : List Product
  inventory_movements : List InventoryMovement
  orders : List Order
  order_items : List OrderItem
  audit_events : List AuditEvent
deriving DecidableEq

/-- `InventoryMovementIn` -/
structure InventoryMovementIn where
  product_id : String
  quantity : Int
  reason : Option String
deriving DecidableEq

/-- `create_inventory_movement(kind, payload, request)`: the shared body of the
`/inventory/receive`, `/inventory/adjust` and `/inventory/waste` routes.
Guards run in source order: positive-quantity check for RECEIVE/WASTE, then the
WASTE negation, then the nonzero check for ADJUST, then product lookup. -/
def create_inventory_movement (db : DB) (kind : MovementType)
    (p : InventoryMovementIn) (staff_id movement_id now : String) :
    Except ApiError (DB × InventoryMovement) :=
  if (kind = .RECEIVE ∨ kind = .WASTE) ∧ p.quantity ≤ 0 then
    .error .InvalidQuantity
  else
    let quantity := if kind = .WASTE then -|p.quantity| else p.quantity
    if kind = .ADJUST ∧ quantity = 0 then
      .error .InvalidQuantity
    else if (db.products.find? (fun x => x.id == p.product_id)).isNone then
      .error .NotFound
    else
      let mv : InventoryMovement :=
        { id := movement_id, product_id := p.product_id, movement_type := kind,
          quantity := quantity, reason := p.reason,
          recorded_by_staff_id := staff_id, occurred_at := now, created_at := now }
      .ok ({ db with inventory_movements := db.inventory_movements ++ [mv] }, mv)

/-- `MemberIn` -/
structure MemberIn where
  member_number : String
  first_name : String
  last_name : String
  date_of_birth : Option String
  phone : Option String
  email : Option String
deriving DecidableEq

/-- `MemberVerifyIn` -/
structure MemberVerifyIn where
  outcome : VerifyOutcome
  notes : Option String
  document_ref : Option String
deriving DecidableEq

/-- `POST /members` (`create_member`): inserts one row with the literal status
`'PENDING'`.  `members.member_number` is UNIQUE in the schema, so a duplicate
insert raises `IntegrityError` and rolls back. -/
def create_member (db : DB) (p : MemberIn) (member_id now : String) :
    Except ApiError (DB × Member) :=
  if db.members.any (fun m => m.member_number == p.member_number) then
    .error .InternalError
  else
    let m : Member :=
      { id := member_id, member_number := p.member_number,
        first_name := p.first_name, last_name := p.last_name,
        date_of_birth := p.date_of_birth, phone := p.phone, email := p.email,
        status := .PENDING, created_at := now, updated_at := now }
    .ok ({ db with members := db.members ++ [m] }, m)

/-- The row update of `update_member`'s UPDATE statement: the SET list covers
the six payload fields and `updated_at` — `status` is not among them. -/
def memberProfileUpd (member_id : String) (p : MemberIn) (now : String) :
    Member → Member := fun m =>
  if m.id == member_id then
    { m with member_number := p.member_number, first_name := p.first_name,
             last_name := p.last_name, date_of_birth := p.date_of_birth,
             phone := p.phone, email := p.email, updated_at := now }
  else m

/-- `PUT /members/{member_id}` (`update_member`). -/
def update_member (db : DB) (member_id : String) (p : MemberIn) (now : String) :
    Except ApiError (DB × Member) :=
  match db.members.find? (fun m => m.id == member_id) with
  | none => .error .NotFound
  | some old =>
    if db.members.any (fun m => ¬ m.id == member_id ∧ m.member_number == p.member_number) then
      .error .InternalError
    else
      .ok ({ db with members := db.members.map (memberProfileUpd member_id p now) },
           memberProfileUpd member_id p now old)

/-- `DELETE /members/{member_id}` (`delete_member`). -/
def delete_member (db : DB) (member_id : String) : Except ApiError DB :=
  if db.members.any (fun m => m.id == member_id) then
    .ok { db with members := db.members.filter (fun m => ¬ m.id == member_id) }
  else .error .NotFound

/-- The row update of `verify_member`'s UPDATE statement: sets `status` to the
decision outcome and bumps `updated_at`. -/
def memberDecisionUpd (member_id : String) (outcome : VerifyOutcome)
    (now : String) : Member → Member := fun m =>
  if m.id == member_id then
    { m with status := outcome.toStatus, updated_at := now }
  else m

/-- `POST /members/{member_id}/verify` (`verify_member`): inserts one
`member_verifications` row, then sets `status = outcome` and bumps
`updated_at`; both inside the one `db_conn` transaction. -/
def verify_member (db : DB) (member_id : String) (p : MemberVerifyIn)
    (staff_id verification_id now : String) : Except ApiError (DB × Member) :=
  match db.members.find? (fun m => m.id == member_id) with
  | none => .error .NotFound
  | some old =>
    let ver : MemberVerification :=
      { id := verification_id, member_id := member_id, outcome := p.outcome,
        verified_by_staff_id := staff_id, notes := p.notes,
        document_ref := p.document_ref, verified_at := now, created_at := now }
    .ok ({ db with
            member_verifications := db.member_verifications ++ [ver],
            members := db.members.map (memberDecisionUpd member_id p.outcome now) },
         memberDecisionUpd member_id p.outcome now old)

/-- `require_verified_member(conn, member_id)`: pure precondition check used by
both order operations; raises 404 for a missing member and 400
(`IneligibleMember`) when `status != 'VERIFIED'`. -/
def require_verified_member (db : DB) (member_id : String) : Except ApiError Unit :=
  match db.members.find? (fun m => m.id == member_id) with
  | none => .error .NotFound
  | some m => if m.status = .VERIFIED then .ok () else .error .IneligibleMember

/-- `OrderItemIn`: pydantic enforces `quantity > 0` and `unit_price ≥ 0` at
the boundary; those bounds appear as hypotheses where a theorem needs them. -/
structure OrderItemIn where
  product_id : String
  quantity : Int
  unit_price : Int
deriving DecidableEq

/-- `OrderCreateIn` -/
structure OrderCreateIn where
  member_id : String
  notes : Option String
  items : List OrderItemIn
deriving DecidableEq

/-- The order-line rows `create_order` inserts, one per payload item, with a
fresh uuid per iteration (`itemId i` for the i-th item). -/
def order_item_rows (order_id now : String) (itemId : Nat → String) :
    Nat → List OrderItemIn → List OrderItem
  | _, [] => []
  | k, it :: rest =>
    { id := itemId k, order_id := order_id, product_id := it.product_id,
      quantity := it.quantity, unit_price := it.unit_price, created_at := now }
      :: order_item_rows order_id now itemId (k + 1) rest

/-- `POST /orders` (`create_order`).  Guard order follows the source: empty
items first, then `require_verified_member`, then the inserts.  The order
number is `f"ORD-strftime"` — a function of the creation instant at second
resolution with no random component; `orders.order_number` is UNIQUE in the
schema, so inserting a number that already exists raises `IntegrityError`
(rolled back, surfaced as an internal failure). -/
def create_order (db : DB) (p : OrderCreateIn) (staff_id order_id : String)
    (itemId : Nat → String) (t : DateTime) :
    Except ApiError (DB × Order × List OrderItem) :=
  if p.items.isEmpty then .error .EmptyOrder
  else
    let now := t.iso
    let order_number := "ORD-" ++ t.compact
    match require_verified_member db p.member_id with
    | .error e => .error e
    | .ok () =>
      if db.orders.any (fun o => o.order_number == order_number) then
        .error .InternalError
      else
        let order : Order :=
          { id := order_id, member_id := p.member_id,
            order_number := order_number, status := .PLACED,
            ordered_by_staff_id := staff_id, ordered_at := now,
            completed_at := none, notes := p.notes,
            created_at := now, updated_at := now }
        let rows := order_item_rows order_id now itemId 0 p.items
        .ok ({ db with orders := db.orders ++ [order],
                       order_items := db.order_items ++ rows },
             order, rows)

/-- One DISPENSE ledger row as `finalize_order` inserts it for a line item. -/
def dispense_movement (movement_id : String) (it : OrderItem)
    (order_number staff_id now : String) : InventoryMovement :=
  { id := movement_id, product_id := it.product_id, movement_type := .DISPENSE,
    quantity := -|it.quantity|,
    reason := some ("Dispense for order " ++ order_number),
    recorded_by_staff_id := staff_id, occurred_at := now, created_at := now }

/-- The DISPENSE rows of `finalize_order`'s per-item loop, one per line, with a
fresh uuid per iteration. -/
def dispense_moves (order_number staff_id now : String) (movementId : Nat → String) :
    Nat → List OrderItem → List InventoryMovement
  | _, [] => []
  | k, it :: rest =>
    dispense_movement (movementId k) it order_number staff_id now
      :: dispense_moves order_number staff_id now movementId (k + 1) rest

/-- The row update of `finalize_order`'s UPDATE statement: marks the order
COMPLETED, stamps `completed_at` and bumps `updated_at`. -/
def orderCompleteUpd (order_id now : String) : Order → Order := fun o =>
  if o.id == order_id then
    { o with status := .COMPLETED, completed_at := some now, updated_at := now }
  else o

/-- `POST /orders/{order_id}/finalize` (`finalize_order`).  Guard order follows
the source: order lookup, `AlreadyFinalized`, `require_verified_member` on the
order's member, empty-lines check; then one DISPENSE insert per line and the
status/completed_at update, all in the one transaction. -/
def finalize_order (db : DB) (order_id staff_id : String)
    (movementId : Nat → String) (now : String) :
    Except ApiError (DB × Order) :=
  match db.orders.find? (fun o => o.id == order_id) with
  | none => .error .NotFound
  | some order =>
    if order.status = .COMPLETED then .error .AlreadyFinalized
    else
      match require_verified_member db order.member_id with
      | .error e => .error e
      | .ok () =>
        let items := db.order_items.filter (fun it => it.order_id == order_id)
        if items.isEmpty then .error .EmptyOrder
        else
          let moves := dispense_moves order.order_number staff_id now movementId 0 items
          .ok ({ db with
                  inventory_movements := db.inventory_movements ++ moves,
                  orders := db.orders.map (orderCompleteUpd order_id now) },
               orderCompleteUpd order_id now order)

/-- `ProductIn` -/
structure ProductIn where
  sku : String
  name : String
  description : Option String
  unit_of_measure : String
  is_active : Bool
deriving DecidableEq

/-- `SupplierIn` -/
structure SupplierIn where
  name : String
  code : String
  contact_name : Option String
  contact_email : Option String
  contact_phone : Option String
  address : Option String
  is_active : Bool
deriving DecidableEq

/-- `build_crud_routes("/products", "products", ProductIn)`, POST: generic
insert of the payload fields plus id and timestamps.  `products.sku` is
UNIQUE in the schema. -/
def create_product (db : DB) (p : ProductIn) (item_id now : String) :
    Except ApiError (DB × Product) :=
  if db.products.any (fun x => x.sku == p.sku) then .error .InternalError
  else
    let x : Product :=
      { id := item_id, sku := p.sku, name := p.name,
        description := p.description, unit_of_measure := p.unit_of_measure,
        is_active := p.is_active, created_at := now, updated_at := now }
    .ok ({ db with products := db.products ++ [x] }, x)

/-- Row update for the generic products PUT: every payload field plus
`updated_at`. -/
def productUpd (item_id : String) (p : ProductIn) (now : String) :
    Product → Product := fun x =>
  if x.id == item_id then
    { x with sku := p.sku, name := p.name, description := p.description,
             unit_of_measure := p.unit_of_measure,
             is_active := p.is_active, updated_at := now }
  else x

/-- `build_crud_routes`, PUT for products: sets every payload field plus
`updated_at`. -/
def update_product (db : DB) (item_id : String) (p : ProductIn) (now : String) :
    Except ApiError (DB × Product) :=
  match db.products.find? (fun x => x.id == item_id) with
  | none => .error .NotFound
  | some old =>
    if db.products.any (fun x => ¬ x.id == item_id ∧ x.sku == p.sku) then
      .error .InternalError
    else
      .ok ({ db with products := db.products.map (productUpd item_id p now) },
           productUpd item_id p now old)

/-- `build_crud_routes`, DELETE for products. -/
def delete_product (db : DB) (item_id : String) : Except ApiError DB :=
  if db.products.any (fun x => x.id == item_id) then
    .ok { db with products := db.products.filter (fun x => ¬ x.id == item_id) }
  else .error .NotFound

/-- `build_crud_routes("/suppliers", ...)`, POST.  `suppliers.code` is UNIQUE. -/
def create_supplier (db : DB) (p : SupplierIn) (item_id now : String) :
    Except ApiError (DB × Supplier) :=
  if db.suppliers.any (fun x => x.code == p.code) then .error .InternalError
  else
    let x : Supplier :=
      { id := item_id, code := p.code, name := p.name,
        contact_name := p.contact_name, contact_email := p.contact_email,
        contact_phone := p.contact_phone, address := p.address,
        is_active := p.is_active, created_at := now, updated_at := now }
    .ok ({ db with suppliers := db.suppliers ++ [x] }, x)

/-- Row update for the generic suppliers PUT. -/
def supplierUpd (item_id : String) (p : SupplierIn) (now : String) :
    Supplier → Supplier := fun x =>
  if x.id == item_id then
    { x with code := p.code, name := p.name,
             contact_name := p.contact_name, contact_email := p.contact_email,
             contact_phone := p.contact_phone, address := p.address,
             is_active := p.is_active, updated_at := now }
  else x

/-- `build_crud_routes`, PUT for suppliers. -/
def update_supplier (db : DB) (item_id : String) (p : SupplierIn) (now : String) :
    Except ApiError (DB × Supplier) :=
  match db.suppliers.find? (fun x => x.id == item_id) with
  | none => .error .NotFound
  | some old =>
    if db.suppliers.any (fun x => ¬ x.id == item_id ∧ x.code == p.code) then
      .error .InternalError
    else
      .ok ({ db with suppliers := db.suppliers.map (supplierUpd item_id p now) },
           supplierUpd item_id p now old)

/-- `build_crud_routes`, DELETE for suppliers. -/
def delete_supplier (db : DB) (item_id : String) : Except ApiError DB :=
  if db.suppliers.any (fun x => x.id == item_id) then
    .ok { db with suppliers := db.suppliers.filter (fun x => ¬ x.id == item_id) }
  else .error .NotFound

/-- An inbound HTTP request as the middleware and `parse_staff_id` observe it:
method, path, query parameters, headers (name/value pairs; lookup is
case-insensitive, as starlette's `Headers.get` is) and the raw body text. -/
structure Request where
  method : String
  path : String
  query : List (String × String)
  headers : List (String × String)
  body : String
deriving DecidableEq

def headerGet (req : Request) (hName : String) : Option String :=
  (req.headers.find? (fun h => h.1.toLower == hName)).map (fun h => h.2)

/-- The `sub` / `username` claims of a decoded JWT payload segment.  The
base64url + JSON decoding itself (`base64.urlsafe_b64decode` + `json.loads`)
is a library collaborator, passed in as a function; `none` models the
`except Exception` branch. -/
structure JwtClaims where
  sub : Option String
  username : Option String
deriving DecidableEq

/-- Python truthiness chain `a or b`: an absent or empty string falls through. -/
def orElseTruthy (a : Option String) (b : String) : String :=
  match a with
  | some s => if s = "" then b else s
  | none => b

/-- `parts[1] + "=" * (-len(parts[1]) % 4)`: base64 padding. -/
def b64pad (s : String) : String :=
  s ++ String.mk (List.replicate ((4 - s.length % 4) % 4) '=')

/-- `token.split(" ", 1)[1]`: everything after the first space. -/
def afterFirstSpace (s : String) : String :=
  " ".intercalate ((s.splitOn " ").drop 1)

/-- `parse_staff_id(request)`: explicit `x-staff-id` header wins when nonempty;
otherwise a `bearer` authorization token's payload segment is decoded without
signature verification and its `sub` or `username` claim used; every other
path yields the sentinel `"unknown"`. -/
def parse_staff_id (decodeJwt : String → Option JwtClaims) (req : Request) : String :=
  let fallback :=
    let auth := (headerGet req "authorization").getD ""
    if auth.toLower.startsWith "bearer " then
      let token := afterFirstSpace auth
      let parts := token.splitOn "."
      if 2 ≤ parts.length then
        match decodeJwt (b64pad (parts.getD 1 "")) with
        | none => "unknown"
        | some claims => orElseTruthy claims.sub (orElseTruthy claims.username "unknown")
      else "unknown"
    else "unknown"
  match headerGet req "x-staff-id" with
  | some s => if s = "" then fallback else s
  | none => fallback

/-- `WRITE_METHODS` -/
def WRITE_METHODS : List String := ["POST", "PUT", "PATCH", "DELETE"]

/-- `audit_write_middleware`: runs the wrapped handler, and for a mutating
method appends exactly one `audit_events` row in a second transaction after
the handler's own transaction has committed (or its error response has been
produced).  The handler is abstracted as a state transformer returning the
post-domain-transaction state and the response status code; the middleware
returns the response unchanged. -/
def audit_write_middleware (decodeJwt : String → Option JwtClaims)
    (req : Request) (handler : DB → DB × Nat) (db : DB)
    (event_id now : String) : DB × Nat :=
  let res := handler db
  if req.method ∈ WRITE_METHODS then
    let ev : AuditEvent :=
      { id := event_id, actor_type := "STAFF",
        actor_id := some (parse_staff_id decodeJwt req),
        event_type := "HTTP_" ++ req.method,
        entity_type := "endpoint", entity_id := req.path,
        event_data :=
          { status_code := res.2, query := req.query,
            body := req.body.take 3000 },
        occurred_at := now, created_at := now }
    ({ res.1 with audit_events := res.1.audit_events ++ [ev] }, res.2)
  else res

/-- Derived stock: `SELECT SUM(quantity) FROM inventory_movements WHERE
product_id = ?` — the read-side convention the spec fixes (stock is never
stored). -/
def derivedStock (db : DB) (pid : String) : Int :=
  ((db.inventory_movements.filter (fun mv => mv.product_id == pid)).map
    (fun mv => mv.quantity)).sum

/-- One mutating API call of the core, with the identifiers and instants the
handler would draw from uuid4 / the clock supplied as data. -/
inductive Op where
  | opCreateMember (p : MemberIn) (mid now : String)
  | opUpdateMember (mid : String) (p : MemberIn) (now : String)
  | opDeleteMember (mid : String)
  | opVerifyMember (mid : String) (p : MemberVerifyIn) (staff vid now : String)
  | opCreateProduct (p : ProductIn) (pid now : String)
  | opUpdateProduct (pid : String) (p : ProductIn) (now : String)
  | opDeleteProduct (pid : String)
  | opCreateSupplier (p : SupplierIn) (sid now : String)
  | opUpdateSupplier (sid : String) (p : SupplierIn) (now : String)
  | opDeleteSupplier (sid : String)
  | opCreateMovement (kind : MovementType) (p : InventoryMovementIn) (staff mvid now : String)
  | opCreateOrder (p : OrderCreateIn) (staff oid : String) (itemId : Nat → String) (t : DateTime)
  | opFinalizeOrder (oid staff : String) (movementId : Nat → String) (now : String)

/-- The database state after an operation: the handler's committed state on
success, the unchanged state when the handler raised (rollback). -/
def applyDB (db : DB) : Op → DB
  | .opCreateMember p mid now =>
    match create_member db p mid now with | .ok (db', _) => db' | .error _ => db
  | .opUpdateMember mid p now =>
    match update_member db mid p now with | .ok (db', _) => db' | .error _ => db
  | .opDeleteMember mid =>
    match delete_member db mid with | .ok db' => db' | .error _ => db
  | .opVerifyMember mid p staff vid now =>
    match verify_member db mid p staff vid now with | .ok (db', _) => db' | .error _ => db
  | .opCreateProduct p pid now =>
    match create_product db p pid now with | .ok (db', _) => db' | .error _ => db
  | .opUpdateProduct pid p now =>
    match update_product db pid p now with | .ok (db', _) => db' | .error _ => db
  | .opDeleteProduct pid =>
    match delete_product db pid with | .ok db' => db' | .error _ => db
  | .opCreateSupplier p sid now =>
    match create_supplier db p sid now with | .ok (db', _) => db' | .error _ => db
  | .opUpdateSupplier sid p now =>
    match update_supplier db sid p now with | .ok (db', _) => db' | .error _ => db
  | .opDeleteSupplier sid =>
    match delete_supplier db sid with | .ok db' => db' | .error _ => db
  | .opCreateMovement kind p staff mvid now =>
    match create_inventory_movement db kind p staff mvid now with
    | .ok (db', _) => db' | .error _ => db
  | .opCreateOrder p staff oid itemId t =>
    match create_order db p staff oid itemId t with
    | .ok (db', _, _) => db' | .error _ => db
  | .opFinalizeOrder oid staff movementId now =>
    match finalize_order db oid staff movementId now with
    | .ok (db', _) => db' | .error _ => db

/-- `true` exactly for the verification-decision operation (`recordDecision`),
the one call that is allowed to change a member's status. -/
def Op.isDecision : Op → Bool
  | .opVerifyMember _ _ _ _ _ => true
  | _ => false

/-- Whether the order id an `opCreateOrder` would insert is fresh, as a uuid4
id is; trivially true for every other operation. -/
def Op.freshOrderId (db : DB) : Op → Prop
  | .opCreateOrder _ _ oid _ _ => ∀ o ∈ db.orders, o.id ≠ oid
  | _ => True

/-- §3 Order invariant: `completed_at` is set iff `status = COMPLETED`. -/
def OrdersConsistent (db : DB) : Prop :=
  ∀ o ∈ db.orders, o.completed_at.isSome ↔ o.status = .COMPLETED

/-! ## Concrete states used by witnesses and counterexamples -/

def emptyDB : DB :=
  { members := [], member_verifications := [], suppliers := [], products := [],
    inventory_movements := [], orders := [], order_items := [], audit_events := [] }

def exProduct : Product :=
  { id := "p1", sku := "SKU1", name := "Blue Dream", description := none,
    unit_of_measure := "g", is_active := true, created_at := "t0", updated_at := "t0" }

def exDBProd : DB := { emptyDB with products := [exProduct] }

def exMemberV : Member :=
  { id := "M1", member_number := "MN1", first_name := "Jane", last_name := "Doe",
    date_of_birth := none, phone := none, email := none, status := .VERIFIED,
    created_at := "t0", updated_at := "t0" }

def exMemberP : Member :=
  { id := "M2", member_number := "MN2", first_name := "Raj", last_name := "Patel",
    date_of_birth := none, phone := none, email := none, status := .PENDING,
    created_at := "t0", updated_at := "t0" }

def exOrderPlaced : Order :=
  { id := "O1", member_id := "M1", order_number := "ORD-20260101000000",
    status := .PLACED, ordered_by_staff_id := "s", ordered_at := "t0",
    completed_at := none, notes := none, created_at := "t0", updated_at := "t0" }

def exItem1 : OrderItem :=
  { id := "I1", order_id := "O1", product_id := "p1", quantity := 2,
    unit_price := 100, created_at := "t0" }

def exDBOrder : DB :=
  { emptyDB with members := [exMemberV], products := [exProduct],
                 orders := [exOrderPlaced], order_items := [exItem1] }

def exMGen : Nat → String := fun n => "MV" ++ toString n

def exMove1 : InventoryMovement :=
  { id := "MV0", product_id := "p1", movement_type := .DISPENSE, quantity := -2,
    reason := some "Dispense for order ORD-20260101000000",
    recorded_by_staff_id := "s2", occurred_at := "t1", created_at := "t1" }

def exOrderDone : Order :=
  { exOrderPlaced with status := .COMPLETED, completed_at := some "t1",
                       updated_at := "t1" }

def exDBOrderDone : DB :=
  { exDBOrder with inventory_movements := [exMove1], orders := [exOrderDone] }

/-- Like `exDBOrder` but with an empty products table: the order's line refers
to a product id that does not exist. -/
def exDBNoProd : DB :=
  { emptyDB with members := [exMemberV], orders := [exOrderPlaced],
                 order_items := [exItem1] }

def exT1 : DateTime :=
  { year := 2026, month := 1, day := 2, hour := 3, minute := 4, second := 5,
    micro := 0 }

/-- Same wall-clock second as `exT1`, different microsecond: a distinct
instant that `strftime('%Y%m%d%H%M%S')` cannot distinguish. -/
def exT2 : DateTime :=
  { year := 2026, month := 1, day := 2, hour := 3, minute := 4, second := 5,
    micro := 999999 }

def exDBVer : DB := { emptyDB with members := [exMemberV] }

def exPayload1 : OrderCreateIn :=
  { member_id := "M1", notes := none,
    items := [{ product_id := "p1", quantity := 1, unit_price := 100 }] }

def exGenA : Nat → String := fun n => "A" ++ toString n

def exGenB : Nat → String := fun n => "B" ++ toString n

def exOrderA : Order :=
  { id := "OA", member_id := "M1", order_number := "ORD-20260102030405",
    status := .PLACED, ordered_by_staff_id := "s", ordered_at := exT1.iso,
    completed_at := none, notes := none, created_at := exT1.iso,
    updated_at := exT1.iso }

def exRowA : OrderItem :=
  { id := "A0", order_id := "OA", product_id := "p1", quantity := 1,
    unit_price := 100, created_at := exT1.iso }

def exDBVerA : DB :=
  { exDBVer with orders := [exOrderA], order_items := [exRowA] }

def exDBPending : DB := { emptyDB with members := [exMemberP] }

def exOrderM2 : Order :=
  { id := "O2", member_id := "M2", order_number := "ORD-20260103000000",
    status := .PLACED, ordered_by_staff_id := "s", ordered_at := "t0",
    completed_at := none, notes := none, created_at := "t0", updated_at := "t0" }

def exItem2 : OrderItem :=
  { id := "I2", order_id := "O2", product_id := "p1", quantity := 1,
    unit_price := 50, created_at := "t0" }

def exDBPendingOrder : DB :=
  { emptyDB with members := [exMemberP], orders := [exOrderM2],
                 order_items := [exItem2] }

def exPayloadM2 : OrderCreateIn :=
  { member_id := "M2", notes := none,
    items := [{ product_id := "p1", quantity := 1, unit_price := 50 }] }

def exPayloadM2empty : OrderCreateIn :=
  { member_id := "M2", notes := none, items := [] }

def exReq : Request :=
  { method := "POST", path := "/suppliers", query := [],
    headers := [("x-staff-id", "staff-123")], body := "name=Acme" }

def exHandler : DB → DB × Nat := fun db => (db, 400)

def exDecode : String → Option JwtClaims := fun _ => none

def exMemberIn : MemberIn :=
  { member_number := "MN9", first_name := "Ana", last_name := "Kim",
    date_of_birth := none, phone := none, email := none }

/-- The member `create_member` inserts for `exMemberIn` at id `M9`, time `t5`. -/
def exMemberNew : Member :=
  { id := "M9", member_number := "MN9", first_name := "Ana", last_name := "Kim",
    date_of_birth := none, phone := none, email := none, status := .PENDING,
    created_at := "t5", updated_at := "t5" }

def exDBPendingNew : DB := { emptyDB with members := [exMemberP, exMemberNew] }

/-- `exMemberP` after a profile PUT with payload `exMemberIn` at time `t6`:
all profile fields replaced, status untouched. -/
def exMemberP2 : Member :=
  { id := "M2", member_number := "MN9", first_name := "Ana", last_name := "Kim",
    date_of_birth := none, phone := none, email := none, status := .PENDING,
    created_at := "t0", updated_at := "t6" }

def exDBPending2 : DB := { emptyDB with members := [exMemberP2] }

/-! ## Inversion and success lemmas shared across the claim theorems -/

theorem require_verified_member_ok_iff (db : DB) (mid : String) :
    require_verified_member db mid = .ok () ↔
      ∃ m, db.members.find? (fun x => x.id == mid) = some m ∧
        m.status = .VERIFIED := by
  unfold require_verified_member
  cases hf : db.members.find? (fun x => x.id == mid) with
  | none => simp
  | some m =>
    by_cases hs : m.status = .VERIFIED <;> simp [hs]

theorem require_verified_member_ineligible {db : DB} {mid : String} {m : Member}
    (hm : db.members.find? (fun x => x.id == mid) = some m)
    (hs : m.status ≠ .VERIFIED) :
    require_verified_member db mid = .error .IneligibleMember := by
  unfold require_verified_member
  rw [hm]
  simp [hs]

theorem create_member_ok_inv {db : DB} {p : MemberIn} {mid now : String}
    {db' : DB} {m : Member} (h : create_member db p mid now = .ok (db', m)) :
    m.status = .PENDING ∧ db' = { db with members := db.members ++ [m] } := by
  unfold create_member at h
  split at h
  · cases h
  · cases h
    exact ⟨rfl, rfl⟩

theorem update_member_ok_inv {db : DB} {mid : String} {p : MemberIn}
    {now : String} {db' : DB} {m : Member}
    (h : update_member db mid p now = .ok (db', m)) :
    db' = { db with members := db.members.map (memberProfileUpd mid p now) } := by
  unfold update_member at h
  split at h
  · cases h
  · split at h
    · cases h
    · cases h
      rfl

theorem delete_member_ok_inv {db : DB} {mid : String} {db' : DB}
    (h : delete_member db mid = .ok db') :
    db' = { db with members := db.members.filter (fun m => ¬ m.id == mid) } := by
  unfold delete_member at h
  split at h
  · cases h
    rfl
  · cases h

theorem verify_member_ok_inv {db : DB} {mid : String} {p : MemberVerifyIn}
    {staff vid now : String} {db' : DB} {m : Member}
    (h : verify_member db mid p staff vid now = .ok (db', m)) :
    ∃ ver, db' = { db with
      member_verifications := db.member_verifications ++ [ver],
      members := db.members.map (memberDecisionUpd mid p.outcome now) } := by
  unfold verify_member at h
  split at h
  · cases h
  · cases h
    exact ⟨_, rfl⟩

theorem create_product_ok_inv {db : DB} {p : ProductIn} {pid now : String}
    {db' : DB} {x : Product} (h : create_product db p pid now = .ok (db', x)) :
    db' = { db with products := db.products ++ [x] } := by
  unfold create_product at h
  split at h
  · cases h
  · cases h
    rfl

theorem update_product_ok_inv {db : DB} {pid : String} {p : ProductIn}
    {now : String} {db' : DB} {x : Product}
    (h : update_product db pid p now = .ok (db', x)) :
    db' = { db with products := db.products.map (productUpd pid p now) } := by
  unfold update_product at h
  split at h
  · cases h
  · split at h
    · cases h
    · cases h
      rfl

theorem delete_product_ok_inv {db : DB} {pid : String} {db' : DB}
    (h : delete_product db pid = .ok db') :
    db' = { db with products := db.products.filter (fun x => ¬ x.id == pid) } := by
  unfold delete_product at h
  split at h
  · cases h
    rfl
  · cases h

theorem create_supplier_ok_inv {db : DB} {p : SupplierIn} {sid now : String}
    {db' : DB} {x : Supplier} (h : create_supplier db p sid now = .ok (db', x)) :
    db' = { db with suppliers := db.suppliers ++ [x] } := by
  unfold create_supplier at h
  split at h
  · cases h
  · cases h
    rfl

theorem update_supplier_ok_inv {db : DB} {sid : String} {p : SupplierIn}
    {now : String} {db' : DB} {x : Supplier}
    (h : update_supplier db sid p now = .ok (db', x)) :
    db' = { db with suppliers := db.suppliers.map (supplierUpd sid p now) } := by
  unfold update_supplier at h
  split at h
  · cases h
  · split at h
    · cases h
    · cases h
      rfl

theorem delete_supplier_ok_inv {db : DB} {sid : String} {db' : DB}
    (h : delete_supplier db sid = .ok db') :
    db' = { db with suppliers := db.suppliers.filter (fun x => ¬ x.id == sid) } := by
  unfold delete_supplier at h
  split at h
  · cases h
    rfl
  · cases h

theorem create_inventory_movement_ok_inv {db : DB} {kind : MovementType}
    {p : InventoryMovementIn} {staff mvid now : String} {db' : DB}
    {mv : InventoryMovement}
    (h : create_inventory_movement db kind p staff mvid now = .ok (db', mv)) :
    db' = { db with inventory_movements := db.inventory_movements ++ [mv] } := by
  unfold create_inventory_movement at h
  dsimp only at h
  repeat' split at h
  all_goals cases h
  all_goals rfl

theorem create_order_ok_inv {db : DB} {p : OrderCreateIn} {staff oid : String}
    {itemId : Nat → String} {t : DateTime} {db' : DB} {o : Order}
    {rows : List OrderItem}
    (h : create_order db p staff oid itemId t = .ok (db', o, rows)) :
    o.status = .PLACED ∧ o.completed_at = none ∧ o.id = oid ∧
    o.member_id = p.member_id ∧ o.order_number = "ORD-" ++ t.compact ∧
    (∀ o2 ∈ db.orders, o2.order_number ≠ o.order_number) ∧
    rows = order_item_rows oid t.iso itemId 0 p.items ∧
    db' = { db with orders := db.orders ++ [o],
                    order_items := db.order_items ++ rows } := by
  unfold create_order at h
  split at h
  · cases h
  · split at h
    · cases h
    · dsimp only at h
      split at h
      · cases h
      next hdup =>
        cases h
        refine ⟨rfl, rfl, rfl, rfl, rfl, ?_, rfl, rfl⟩
        intro o2 ho2 hcontra
        exact hdup (List.any_eq_true.mpr ⟨o2, ho2, by simp [hcontra]⟩)

theorem finalize_order_ok_inv {db : DB} {oid staff : String}
    {movementId : Nat → String} {now : String} {db' : DB} {oFin : Order}
    (h : finalize_order db oid staff movementId now = .ok (db', oFin)) :
    ∃ ord, db.orders.find? (fun o => o.id == oid) = some ord ∧
      ord.status = .PLACED ∧
      (∃ mem, db.members.find? (fun x => x.id == ord.member_id) = some mem ∧
        mem.status = .VERIFIED) ∧
      db.order_items.filter (fun it => it.order_id == oid) ≠ [] ∧
      oFin = orderCompleteUpd oid now ord ∧
      db' = { db with
        inventory_movements := db.inventory_movements ++
          dispense_moves ord.order_number staff now movementId 0
            (db.order_items.filter (fun it => it.order_id == oid)),
        orders := db.orders.map (orderCompleteUpd oid now) } := by
  unfold finalize_order at h
  split at h
  · cases h
  next ord hord =>
    split at h
    · cases h
    next hst =>
      cases hreq : require_verified_member db ord.member_id with
      | error e => rw [hreq] at h; cases h
      | ok u =>
        cases u
        rw [hreq] at h
        dsimp only at h
        split at h
        · cases h
        next hempty =>
          cases h
          refine ⟨ord, hord, ?_, ?_, ?_, rfl, rfl⟩
          · cases hs : ord.status with
            | PLACED => rfl
            | COMPLETED => exact absurd hs hst
          · exact (require_verified_member_ok_iff db ord.member_id).mp hreq
          · intro hnil
            exact hempty (by simp [List.isEmpty_iff, hnil])

theorem finalize_order_success {db : DB} {oid : String} {ord : Order}
    {mem : Member} (staff : String) (movementId : Nat → String) (now : String)
    (hord : db.orders.find? (fun o => o.id == oid) = some ord)
    (hst : ord.status = .PLACED)
    (hmem : db.members.find? (fun x => x.id == ord.member_id) = some mem)
    (hver : mem.status = .VERIFIED)
    (hitems : db.order_items.filter (fun it => it.order_id == oid) ≠ []) :
    finalize_order db oid staff movementId now =
      .ok ({ db with
              inventory_movements := db.inventory_movements ++
                dispense_moves ord.order_number staff now movementId 0
                  (db.order_items.filter (fun it => it.order_id == oid)),
              orders := db.orders.map (orderCompleteUpd oid now) },
           orderCompleteUpd oid now ord) := by
  have hreq : require_verified_member db ord.member_id = .ok () :=
    (require_verified_member_ok_iff db ord.member_id).mpr ⟨mem, hmem, hver⟩
  unfold finalize_order
  rw [hord]
  dsimp only
  simp [hst, hreq, List.isEmpty_iff, hitems]

theorem dispense_moves_length (order_number staff now : String)
    (movementId : Nat → String) :
    ∀ (k : Nat) (items : List OrderItem),
      (dispense_moves order_number staff now movementId k items).length =
        items.length := by
  intro k items
  induction items generalizing k with
  | nil => rfl
  | cons it rest ih => simp [dispense_moves, ih]

theorem dispense_moves_forall2 (order_number staff now : String)
    (movementId : Nat → String) :
    ∀ (k : Nat) (items : List OrderItem),
      List.Forall₂ (fun (it : OrderItem) (mv : InventoryMovement) =>
          mv.movement_type = .DISPENSE ∧ mv.quantity = -|it.quantity| ∧
          mv.product_id = it.product_id ∧
          mv.reason = some ("Dispense for order " ++ order_number))
        items (dispense_moves order_number staff now movementId k items) := by
  intro k items
  induction items generalizing k with
  | nil => exact .nil
  | cons it rest ih => exact .cons ⟨rfl, rfl, rfl, rfl⟩ (ih (k + 1))

theorem dispense_moves_stock (order_number staff now : String)
    (movementId : Nat → String) (pid : String) :
    ∀ (k : Nat) (items : List OrderItem),
      (((dispense_moves order_number staff now movementId k items).filter
          (fun mv => mv.product_id == pid)).map (fun mv => mv.quantity)).sum =
        -((items.filter (fun it => it.product_id == pid)).map
            (fun it => |it.quantity|)).sum := by
  intro k items
  induction items generalizing k with
  | nil => simp [dispense_moves]
  | cons it rest ih =>
    by_cases hp : it.product_id == pid
    · simp only [dispense_moves, dispense_movement, List.filter_cons, hp,
        if_true, List.map_cons, List.sum_cons, ih (k + 1)]
      ring
    · simp [dispense_moves, dispense_movement, List.filter_cons, hp, ih (k + 1)]

theorem eq_of_nodup_key {α : Type} {f : α → String} {l : List α}
    (hnd : (l.map f).Nodup) :
    ∀ {a b : α}, a ∈ l → b ∈ l → f a = f b → a = b := by
  induction l with
  | nil => intro a b ha _ _; cases ha
  | cons hd tl ih =>
    intro a b ha hb hf
    rw [List.map_cons, List.nodup_cons] at hnd
    rcases List.mem_cons.mp ha with rfl | ha' <;>
      rcases List.mem_cons.mp hb with rfl | hb'
    · rfl
    · exact absurd (hf ▸ List.mem_map_of_mem f hb') hnd.1
    · exact absurd (hf ▸ List.mem_map_of_mem f ha') hnd.1
    · exact ih hnd.2 ha' hb' hf

theorem memberProfileUpd_id (mid : String) (p : MemberIn) (now : String)
    (m : Member) : (memberProfileUpd mid p now m).id = m.id := by
  unfold memberProfileUpd
  split <;> rfl

theorem memberProfileUpd_status (mid : String) (p : MemberIn) (now : String)
    (m : Member) : (memberProfileUpd mid p now m).status = m.status := by
  unfold memberProfileUpd
  split <;> rfl

theorem memberDecisionUpd_id (mid : String) (oc : VerifyOutcome) (now : String)
    (m : Member) : (memberDecisionUpd mid oc now m).id = m.id := by
  unfold memberDecisionUpd
  split <;> rfl

theorem orderCompleteUpd_id (oid now : String) (o : Order) :
    (orderCompleteUpd oid now o).id = o.id := by
  unfold orderCompleteUpd
  split <;> rfl

theorem find?_map_orderCompleteUpd (oid now : String) (l : List Order) :
    (l.map (orderCompleteUpd oid now)).find? (fun o => o.id == oid) =
      (l.find? (fun o => o.id == oid)).map (orderCompleteUpd oid now) := by
  rw [List.find?_map]
  have hpred : ((fun o => o.id == oid) ∘ orderCompleteUpd oid now) =
      (fun o : Order => o.id == oid) := by
    funext o
    simp [Function.comp, orderCompleteUpd_id]
  rw [hpred]

theorem orderCompleteUpd_of_ne {oid now : String} {o : Order}
    (h : ¬ o.id == oid) : orderCompleteUpd oid now o = o := by
  unfold orderCompleteUpd
  simp [h]

theorem create_inventory_movement_notfound {db : DB} {p : InventoryMovementIn}
    {staff mvid now : String} (kind : MovementType)
    (hfind : db.products.find? (fun x => x.id == p.product_id) = none)
    (hpos : (kind = .RECEIVE ∨ kind = .WASTE) → 0 < p.quantity)
    (hnz : kind = .ADJUST → p.quantity ≠ 0) :
    create_inventory_movement db kind p staff mvid now = .error .NotFound := by
  cases kind with
  | RECEIVE =>
    have h1 : 0 < p.quantity := hpos (Or.inl rfl)
    simp [create_inventory_movement, hfind, not_le.mpr h1]
  | WASTE =>
    have h1 : 0 < p.quantity := hpos (Or.inr rfl)
    simp [create_inventory_movement, hfind, not_le.mpr h1]
  | ADJUST =>
    have h1 : p.quantity ≠ 0 := hnz rfl
    simp [create_inventory_movement, hfind, h1]
  | DISPENSE =>
    simp [create_inventory_movement, hfind]

/-! ## C4 / C5 — movement recording policy -/

/-- C4: `recordMovement` enforces the per-kind policy exactly: RECEIVE demands
a positive requested quantity and stores it as given; WASTE demands a positive
requested quantity and stores its negated absolute value; ADJUST demands a
nonzero quantity and stores it signed as given; with the kind-specific
validation passed, a missing product fails with `NotFound`; and each success
appends exactly one movement row, leaving every prior row and every other
table untouched (the post-state is the pre-state with one row appended). -/
theorem create_inventory_movement_policy (db : DB) (p : InventoryMovementIn)
    (staff mvid now : String) :
    (p.quantity ≤ 0 →
      create_inventory_movement db .RECEIVE p staff mvid now = .error .InvalidQuantity ∧
      create_inventory_movement db .WASTE p staff mvid now = .error .InvalidQuantity) ∧
    (p.quantity = 0 →
      create_inventory_movement db .ADJUST p staff mvid now = .error .InvalidQuantity) ∧
    (∀ kind, db.products.find? (fun x => x.id == p.product_id) = none →
      ((kind = .RECEIVE ∨ kind = .WASTE) → 0 < p.quantity) →
      (kind = .ADJUST → p.quantity ≠ 0) →
      create_inventory_movement db kind p staff mvid now = .error .NotFound) ∧
    (0 < p.quantity →
      (db.products.find? (fun x => x.id == p.product_id)).isSome →
      ∃ mv, create_inventory_movement db .RECEIVE p staff mvid now =
          .ok ({ db with inventory_movements := db.inventory_movements ++ [mv] }, mv) ∧
        mv.movement_type = .RECEIVE ∧ mv.quantity = p.quantity ∧
        mv.product_id = p.product_id) ∧
    (0 < p.quantity →
      (db.products.find? (fun x => x.id == p.product_id)).isSome →
      ∃ mv, create_inventory_movement db .WASTE p staff mvid now =
          .ok ({ db with inventory_movements := db.inventory_movements ++ [mv] }, mv) ∧
        mv.movement_type = .WASTE ∧ mv.quantity = -|p.quantity| ∧
        mv.product_id = p.product_id) ∧
    (p.quantity ≠ 0 →
      (db.products.find? (fun x => x.id == p.product_id)).isSome →
      ∃ mv, create_inventory_movement db .ADJUST p staff mvid now =
          .ok ({ db with inventory_movements := db.inventory_movements ++ [mv] }, mv) ∧
        mv.movement_type = .ADJUST ∧ mv.quantity = p.quantity ∧
        mv.product_id = p.product_id) := by
  refine ⟨?_, ?_, ?_, ?_, ?_, ?_⟩
  · intro hq
    constructor <;> simp [create_inventory_movement, hq]
  · intro hq
    simp [create_inventory_movement, hq]
  · exact fun kind hfind hpos hnz =>
      create_inventory_movement_notfound kind hfind hpos hnz
  · intro hq hsome
    rw [Option.isSome_iff_exists] at hsome
    obtain ⟨x, hx⟩ := hsome
    refine ⟨{ id := mvid, product_id := p.product_id, movement_type := .RECEIVE,
              quantity := p.quantity, reason := p.reason,
              recorded_by_staff_id := staff, occurred_at := now, created_at := now },
            ?_, rfl, rfl, rfl⟩
    simp [create_inventory_movement, hx, not_le.mpr hq]
  · intro hq hsome
    rw [Option.isSome_iff_exists] at hsome
    obtain ⟨x, hx⟩ := hsome
    refine ⟨{ id := mvid, product_id := p.product_id, movement_type := .WASTE,
              quantity := -|p.quantity|, reason := p.reason,
              recorded_by_staff_id := staff, occurred_at := now, created_at := now },
            ?_, rfl, rfl, rfl⟩
    simp [create_inventory_movement, hx, not_le.mpr hq]
  · intro hq hsome
    rw [Option.isSome_iff_exists] at hsome
    obtain ⟨x, hx⟩ := hsome
    refine ⟨{ id := mvid, product_id := p.product_id, movement_type := .ADJUST,
              quantity := p.quantity, reason := p.reason,
              recorded_by_staff_id := staff, occurred_at := now, created_at := now },
            ?_, rfl, rfl, rfl⟩
    simp [create_inventory_movement, hx, hq]

/-- Witness for C4 at concrete inputs over a one-product database. -/
theorem create_inventory_movement_policy_witness :
    (create_inventory_movement exDBProd .RECEIVE ⟨"p1", -1, none⟩ "s" "m1" "t1" =
      .error .InvalidQuantity) ∧
    (create_inventory_movement exDBProd .ADJUST ⟨"p1", 0, none⟩ "s" "m1" "t1" =
      .error .InvalidQuantity) ∧
    (create_inventory_movement exDBProd .RECEIVE ⟨"p9", 5, none⟩ "s" "m1" "t1" =
      .error .NotFound) ∧
    (∃ mv, create_inventory_movement exDBProd .WASTE ⟨"p1", 5, none⟩ "s" "m1" "t1" =
        .ok ({ exDBProd with
                inventory_movements := exDBProd.inventory_movements ++ [mv] }, mv) ∧
      mv.movement_type = .WASTE ∧ mv.quantity = -|(5 : Int)| ∧ mv.product_id = "p1") := by
  have h := create_inventory_movement_policy exDBProd ⟨"p1", -1, none⟩ "s" "m1" "t1"
  have h2 := create_inventory_movement_policy exDBProd ⟨"p1", 0, none⟩ "s" "m1" "t1"
  have h3 := create_inventory_movement_policy exDBProd ⟨"p9", 5, none⟩ "s" "m1" "t1"
  have h4 := create_inventory_movement_policy exDBProd ⟨"p1", 5, none⟩ "s" "m1" "t1"
  refine ⟨(h.1 (by decide)).1, h2.2.1 (by decide),
    h3.2.2.1 .RECEIVE (by decide) (fun _ => by decide) (fun hk => by cases hk),
    h4.2.2.2.2.1 (by decide) (by decide)⟩

/-- C5 counterexample: a WASTE request with quantity −3 against an existing
product is rejected with `InvalidQuantity` — it is not accepted, and no
movement is stored. -/
theorem waste_negative_rejected_cex :
    create_inventory_movement exDBProd .WASTE ⟨"p1", -3, none⟩ "s" "m1" "t1" =
      .error .InvalidQuantity := by
  rfl

/-- C5 (amended): a WASTE movement request with a non-positive quantity (such
as −3) fails with `InvalidQuantity` — the positivity guard runs before the
negation, so the entry point is not double-negation tolerant; an accepted
(positive) quantity q is stored as −q. -/
theorem waste_negative_rejected (db : DB) (p : InventoryMovementIn)
    (staff mvid now : String) :
    (p.quantity ≤ 0 →
      create_inventory_movement db .WASTE p staff mvid now = .error .InvalidQuantity) ∧
    (0 < p.quantity →
      (db.products.find? (fun x => x.id == p.product_id)).isSome →
      ∃ mv, create_inventory_movement db .WASTE p staff mvid now =
          .ok ({ db with inventory_movements := db.inventory_movements ++ [mv] }, mv) ∧
        mv.quantity = -p.quantity) := by
  constructor
  · intro hq
    simp [create_inventory_movement, hq]
  · intro hq hsome
    rw [Option.isSome_iff_exists] at hsome
    obtain ⟨x, hx⟩ := hsome
    refine ⟨{ id := mvid, product_id := p.product_id, movement_type := .WASTE,
              quantity := -|p.quantity|, reason := p.reason,
              recorded_by_staff_id := staff, occurred_at := now, created_at := now },
            ?_, ?_⟩
    · simp [create_inventory_movement, hx, not_le.mpr hq]
    · simp [abs_of_pos hq]

/-- Witness for the amended C5 at quantity −3 and at quantity 5. -/
theorem waste_negative_rejected_witness :
    (create_inventory_movement exDBProd .WASTE ⟨"p1", -3, none⟩ "s" "m2" "t1" =
      .error .InvalidQuantity) ∧
    (∃ mv, create_inventory_movement exDBProd .WASTE ⟨"p1", 5, none⟩ "s" "m2" "t1" =
        .ok ({ exDBProd with
                inventory_movements := exDBProd.inventory_movements ++ [mv] }, mv) ∧
      mv.quantity = -(5 : Int)) := by
  have h := waste_negative_rejected exDBProd ⟨"p1", -3, none⟩ "s" "m2" "t1"
  have h2 := waste_negative_rejected exDBProd ⟨"p1", 5, none⟩ "s" "m2" "t1"
  exact ⟨h.1 (by decide), h2.2 (by decide) (by decide)⟩

/-! ## C1 — finalize dispenses exactly one movement per line -/

/-- C1: whenever `finalize_order` succeeds, the movement ledger grows by
exactly one DISPENSE row per order line — `Forall₂` pairs each line with its
movement (same product, quantity = −|line quantity|, reason referencing the
order number) and forces equal counts — and the order is transitioned to
COMPLETED with `completed_at` stamped to the call's instant.  (On the error
paths the transaction rolls back, which the embedding renders as an error
result carrying no state.) -/
theorem finalize_order_dispense_per_line {db : DB} {oid staff : String}
    {movementId : Nat → String} {now : String} {db' : DB} {oFin : Order}
    (h : finalize_order db oid staff movementId now = .ok (db', oFin)) :
    ∃ ord, db.orders.find? (fun o => o.id == oid) = some ord ∧
      ∃ moves, db'.inventory_movements = db.inventory_movements ++ moves ∧
        moves.length =
          (db.order_items.filter (fun it => it.order_id == oid)).length ∧
        List.Forall₂ (fun (it : OrderItem) (mv : InventoryMovement) =>
            mv.movement_type = .DISPENSE ∧ mv.quantity = -|it.quantity| ∧
            mv.product_id = it.product_id ∧
            mv.reason = some ("Dispense for order " ++ ord.order_number))
          (db.order_items.filter (fun it => it.order_id == oid)) moves ∧
        oFin.status = .COMPLETED ∧ oFin.completed_at = some now ∧
        db'.orders = db.orders.map (orderCompleteUpd oid now) := by
  obtain ⟨ord, hord, hst, hmem, hne, hfin, hdb⟩ := finalize_order_ok_inv h
  have hpred : (ord.id == oid) = true := by simpa using List.find?_some hord
  refine ⟨ord, hord,
    dispense_moves ord.order_number staff now movementId 0
      (db.order_items.filter (fun it => it.order_id == oid)),
    ?_, dispense_moves_length _ _ _ _ 0 _, dispense_moves_forall2 _ _ _ _ 0 _,
    ?_, ?_, ?_⟩
  · rw [hdb]
  · rw [hfin]
    unfold orderCompleteUpd
    simp [hpred]
  · rw [hfin]
    unfold orderCompleteUpd
    simp [hpred]
  · rw [hdb]

/-- Witness for C1: finalizing the concrete placed order `O1`. -/
theorem finalize_order_dispense_per_line_witness :
    ∃ ord, exDBOrder.orders.find? (fun o => o.id == "O1") = some ord ∧
      ∃ moves, exDBOrderDone.inventory_movements =
          exDBOrder.inventory_movements ++ moves ∧
        moves.length =
          (exDBOrder.order_items.filter (fun it => it.order_id == "O1")).length ∧
        List.Forall₂ (fun (it : OrderItem) (mv : InventoryMovement) =>
            mv.movement_type = .DISPENSE ∧ mv.quantity = -|it.quantity| ∧
            mv.product_id = it.product_id ∧
            mv.reason = some ("Dispense for order " ++ ord.order_number))
          (exDBOrder.order_items.filter (fun it => it.order_id == "O1")) moves ∧
        exOrderDone.status = .COMPLETED ∧ exOrderDone.completed_at = some "t1" ∧
        exDBOrderDone.orders = exDBOrder.orders.map (orderCompleteUpd "O1" "t1") :=
  finalize_order_dispense_per_line
    (show finalize_order exDBOrder "O1" "s2" exMGen "t1" =
      .ok (exDBOrderDone, exOrderDone) from rfl)

/-! ## C3 — finalize is deliberately not idempotent -/

/-- C3: on a placed order of a verified member with at least one line, the
first `finalize_order` succeeds; a second call on the same order id then
fails with `AlreadyFinalized` (rolling back, so the state is the one the
first call left), and across both calls the DISPENSE movements were appended
exactly once per order line. -/
theorem finalize_twice_alreadyfinalized {db : DB} {oid : String} {ord : Order}
    {mem : Member} (staff staff2 : String)
    (movementId movementId2 : Nat → String) (now now2 : String)
    (hord : db.orders.find? (fun o => o.id == oid) = some ord)
    (hst : ord.status = .PLACED)
    (hmem : db.members.find? (fun x => x.id == ord.member_id) = some mem)
    (hver : mem.status = .VERIFIED)
    (hitems : db.order_items.filter (fun it => it.order_id == oid) ≠ []) :
    ∃ db' o1, finalize_order db oid staff movementId now = .ok (db', o1) ∧
      finalize_order db' oid staff2 movementId2 now2 =
        .error .AlreadyFinalized ∧
      ∃ moves, db'.inventory_movements = db.inventory_movements ++ moves ∧
        moves.length =
          (db.order_items.filter (fun it => it.order_id == oid)).length := by
  have h1 := finalize_order_success staff movementId now hord hst hmem hver hitems
  have hpred : (ord.id == oid) = true := by simpa using List.find?_some hord
  refine ⟨_, _, h1, ?_, _, rfl, dispense_moves_length _ _ _ _ 0 _⟩
  unfold finalize_order
  dsimp only
  rw [find?_map_orderCompleteUpd, hord]
  simp [orderCompleteUpd, hpred]

/-- Witness for C3 on the concrete placed order `O1`. -/
theorem finalize_twice_alreadyfinalized_witness :
    ∃ db' o1, finalize_order exDBOrder "O1" "s2" exMGen "t1" = .ok (db', o1) ∧
      finalize_order db' "O1" "s3" exMGen "t2" = .error .AlreadyFinalized ∧
      ∃ moves, db'.inventory_movements = exDBOrder.inventory_movements ++ moves ∧
        moves.length =
          (exDBOrder.order_items.filter (fun it => it.order_id == "O1")).length :=
  finalize_twice_alreadyfinalized "s2" "s3" exMGen exMGen "t1" "t2"
    rfl rfl rfl rfl (by decide)

/-! ## C10 — finalize performs no product-existence or stock check -/

/-- C10: the success of `finalize_order` does not depend on the products table
or on any stock level — the hypotheses mention neither — and each dispensed
product's derived stock drops by the summed line quantities, possibly below
zero; by contrast the public movement entry point rejects a movement whose
product id is absent with `NotFound` (kind-specific quantity validation
assumed passed, since it runs first). -/
theorem finalize_no_product_or_stock_check {db : DB} {oid : String}
    {ord : Order} {mem : Member} (staff : String) (movementId : Nat → String)
    (now : String)
    (hord : db.orders.find? (fun o => o.id == oid) = some ord)
    (hst : ord.status = .PLACED)
    (hmem : db.members.find? (fun x => x.id == ord.member_id) = some mem)
    (hver : mem.status = .VERIFIED)
    (hitems : db.order_items.filter (fun it => it.order_id == oid) ≠ []) :
    (∃ db' oFin, finalize_order db oid staff movementId now = .ok (db', oFin) ∧
      ∀ pid, derivedStock db' pid = derivedStock db pid -
        (((db.order_items.filter (fun it => it.order_id == oid)).filter
            (fun it => it.product_id == pid)).map (fun it => |it.quantity|)).sum) ∧
    (∀ (kind : MovementType) (p : InventoryMovementIn) (staff2 mvid now2 : String),
      db.products.find? (fun x => x.id == p.product_id) = none →
      ((kind = .RECEIVE ∨ kind = .WASTE) → 0 < p.quantity) →
      (kind = .ADJUST → p.quantity ≠ 0) →
      create_inventory_movement db kind p staff2 mvid now2 = .error .NotFound) := by
  constructor
  · have h1 := finalize_order_success staff movementId now hord hst hmem hver hitems
    refine ⟨_, _, h1, ?_⟩
    intro pid
    unfold derivedStock
    dsimp only
    rw [List.filter_append, List.map_append, List.sum_append,
      dispense_moves_stock]
    ring
  · exact fun kind p staff2 mvid now2 hfind hpos hnz =>
      create_inventory_movement_notfound kind hfind hpos hnz

/-- Witness for C10: the order's only line references product `p1`, which is
absent from the (empty) products table; finalization still succeeds and
drives `p1`'s derived stock to −2, while a movement request for the same
product id is rejected with `NotFound`. -/
theorem finalize_no_product_or_stock_check_witness :
    (∃ db' oFin, finalize_order exDBNoProd "O1" "s2" exMGen "t1" =
        .ok (db', oFin) ∧
      ∀ pid, derivedStock db' pid = derivedStock exDBNoProd pid -
        (((exDBNoProd.order_items.filter (fun it => it.order_id == "O1")).filter
            (fun it => it.product_id == pid)).map (fun it => |it.quantity|)).sum) ∧
    (∀ (kind : MovementType) (p : InventoryMovementIn) (staff2 mvid now2 : String),
      exDBNoProd.products.find? (fun x => x.id == p.product_id) = none →
      ((kind = .RECEIVE ∨ kind = .WASTE) → 0 < p.quantity) →
      (kind = .ADJUST → p.quantity ≠ 0) →
      create_inventory_movement exDBNoProd kind p staff2 mvid now2 =
        .error .NotFound) :=
  finalize_no_product_or_stock_check "s2" exMGen "t1" rfl rfl rfl rfl (by decide)

/-! ## C2 — eligibility gating and error precedence -/

/-- C2 counterexample: an order-creation attempt for the PENDING member `M2`
with an empty item list fails with `EmptyOrder`, not `IneligibleMember` — the
empty-items guard runs before the member check, so not every attempt on an
unverified member surfaces `IneligibleMember`. -/
theorem unverified_member_error_precedence_cex :
    exMemberP.status ≠ .VERIFIED ∧
    create_order exDBPending exPayloadM2empty "s" "O9" exGenA exT1 =
      .error .EmptyOrder ∧
    ApiError.EmptyOrder ≠ ApiError.IneligibleMember :=
  ⟨by decide, rfl, by decide⟩

/-- C2 (amended): an order-creation attempt with a nonempty item list, and a
finalization attempt on an existing not-yet-completed order, fail with
`IneligibleMember` whenever the member's current status is not VERIFIED (the
earlier guards — `EmptyOrder` at creation, `NotFound`/`AlreadyFinalized` at
finalization — take precedence otherwise); and every error return of either
operation leaves the database unchanged, no order, order-item or movement row
being written. -/
theorem unverified_member_rejected :
    (∀ (db : DB) (p : OrderCreateIn) (staff oid : String)
        (itemId : Nat → String) (t : DateTime) (m : Member),
      p.items ≠ [] →
      db.members.find? (fun x => x.id == p.member_id) = some m →
      m.status ≠ .VERIFIED →
      create_order db p staff oid itemId t = .error .IneligibleMember) ∧
    (∀ (db : DB) (oid staff : String) (movementId : Nat → String)
        (now : String) (ord : Order) (m : Member),
      db.orders.find? (fun o => o.id == oid) = some ord →
      ord.status ≠ .COMPLETED →
      db.members.find? (fun x => x.id == ord.member_id) = some m →
      m.status ≠ .VERIFIED →
      finalize_order db oid staff movementId now = .error .IneligibleMember) ∧
    (∀ (db : DB) (p : OrderCreateIn) (staff oid : String)
        (itemId : Nat → String) (t : DateTime) (e : ApiError),
      create_order db p staff oid itemId t = .error e →
      applyDB db (.opCreateOrder p staff oid itemId t) = db) ∧
    (∀ (db : DB) (oid staff : String) (movementId : Nat → String)
        (now : String) (e : ApiError),
      finalize_order db oid staff movementId now = .error e →
      applyDB db (.opFinalizeOrder oid staff movementId now) = db) := by
  refine ⟨?_, ?_, ?_, ?_⟩
  · intro db p staff oid itemId t m hne hm hs
    have hreq := require_verified_member_ineligible hm hs
    unfold create_order
    simp [List.isEmpty_iff, hne, hreq]
  · intro db oid staff movementId now ord m hord hoc hm hs
    have hreq := require_verified_member_ineligible hm hs
    unfold finalize_order
    rw [hord]
    dsimp only
    simp [hoc, hreq]
  · intro db p staff oid itemId t e h
    simp [applyDB, h]
  · intro db oid staff movementId now e h
    simp [applyDB, h]

/-- Witness for the amended C2: both operations attempted against the PENDING
member `M2` fail with `IneligibleMember` and leave the state unchanged. -/
theorem unverified_member_rejected_witness :
    create_order exDBPendingOrder exPayloadM2 "s" "O9" exGenA exT1 =
      .error .IneligibleMember ∧
    finalize_order exDBPendingOrder "O2" "s" exMGen "t1" =
      .error .IneligibleMember ∧
    applyDB exDBPendingOrder (.opCreateOrder exPayloadM2 "s" "O9" exGenA exT1) =
      exDBPendingOrder ∧
    applyDB exDBPendingOrder (.opFinalizeOrder "O2" "s" exMGen "t1") =
      exDBPendingOrder := by
  have h1 := unverified_member_rejected.1 exDBPendingOrder exPayloadM2 "s" "O9"
    exGenA exT1 exMemberP (by decide) rfl (by decide)
  have h2 := unverified_member_rejected.2.1 exDBPendingOrder "O2" "s" exMGen
    "t1" exOrderM2 exMemberP rfl (by decide) rfl (by decide)
  exact ⟨h1, h2,
    unverified_member_rejected.2.2.1 _ _ _ _ _ _ _ h1,
    unverified_member_rejected.2.2.2 _ _ _ _ _ _ h2⟩

/-! ## C6 — order numbers are time-derived with no collision-safe component -/

/-- C6 counterexample: `exT1` and `exT2` are distinct creation instants in the
same wall-clock second; the first creation succeeds with order number
`ORD-` ++ the second-resolution timestamp, and a second creation at the other
instant fails with an internal failure (UNIQUE violation on `order_number`)
instead of producing a distinct number — the generated number contains no
collision-safe identifier. -/
theorem order_number_collision_cex :
    exT1 ≠ exT2 ∧
    DateTime.compact exT1 = DateTime.compact exT2 ∧
    exOrderA.order_number = "ORD-" ++ DateTime.compact exT1 ∧
    create_order exDBVer exPayload1 "s" "OA" exGenA exT1 =
      .ok (exDBVerA, exOrderA, [exRowA]) ∧
    create_order exDBVerA exPayload1 "s" "OB" exGenB exT2 =
      .error .InternalError :=
  ⟨by decide, by decide, by decide, rfl, rfl⟩

/-- C6 (amended): a successful `create_order` generates the human-readable
order number `ORD-` ++ the creation instant formatted at second resolution —
deterministic from the creation time with no collision-safe component — and
its number differs from every pre-existing order's only because the UNIQUE
constraint enforces it: a second creation whose instant falls in the same
second fails with an internal failure instead of producing a distinct
number. -/
theorem order_number_deterministic :
    (∀ {db : DB} {p : OrderCreateIn} {staff oid : String}
        {itemId : Nat → String} {t : DateTime} {db' : DB} {o : Order}
        {rows : List OrderItem},
      create_order db p staff oid itemId t = .ok (db', o, rows) →
      o.order_number = "ORD-" ++ t.compact ∧
      ∀ o2 ∈ db.orders, o2.order_number ≠ o.order_number) ∧
    (∀ (db : DB) (p p2 : OrderCreateIn) (staff staff2 oid oid2 : String)
        (itemId itemId2 : Nat → String) (t t2 : DateTime) (db' : DB)
        (o : Order) (rows : List OrderItem),
      t.compact = t2.compact →
      create_order db p staff oid itemId t = .ok (db', o, rows) →
      p2.items ≠ [] →
      (∃ m, db'.members.find? (fun x => x.id == p2.member_id) = some m ∧
        m.status = .VERIFIED) →
      create_order db' p2 staff2 oid2 itemId2 t2 = .error .InternalError) := by
  constructor
  · intro db p staff oid itemId t db' o rows h
    obtain ⟨-, -, -, -, honum, hdistinct, -, -⟩ := create_order_ok_inv h
    exact ⟨honum, hdistinct⟩
  · intro db p p2 staff staff2 oid oid2 itemId itemId2 t t2 db' o rows hcomp h1
      hne hmem
    obtain ⟨-, -, -, -, honum, -, -, hdb⟩ := create_order_ok_inv h1
    obtain ⟨m, hm, hms⟩ := hmem
    have hreq : require_verified_member db' p2.member_id = .ok () :=
      (require_verified_member_ok_iff _ _).mpr ⟨m, hm, hms⟩
    have hany : db'.orders.any
        (fun o2 => o2.order_number == ("ORD-" ++ t2.compact)) = true := by
      refine List.any_eq_true.mpr ⟨o, ?_, ?_⟩
      · rw [hdb]
        exact List.mem_append_right _ (List.mem_singleton.mpr rfl)
      · simp [honum, hcomp]
    unfold create_order
    simp [List.isEmpty_iff, hne, hreq, hany]

/-- Witness for the amended C6 at the concrete same-second instants. -/
theorem order_number_deterministic_witness :
    (exOrderA.order_number = "ORD-" ++ exT1.compact ∧
      ∀ o2 ∈ exDBVer.orders, o2.order_number ≠ exOrderA.order_number) ∧
    create_order exDBVerA exPayload1 "s2" "OB" exGenB exT2 =
      .error .InternalError := by
  refine ⟨order_number_deterministic.1 (show create_order exDBVer exPayload1
    "s" "OA" exGenA exT1 = .ok (exDBVerA, exOrderA, [exRowA]) from rfl), ?_⟩
  exact order_number_deterministic.2 exDBVer exPayload1 exPayload1 "s" "s2"
    "OA" "OB" exGenA exGenB exT1 exT2 exDBVerA exOrderA [exRowA] (by decide)
    rfl (by decide) ⟨exMemberV, rfl, rfl⟩

/-! ## C7 — member status changes only through a recorded decision -/

/-- C7: a freshly created member's status is the literal PENDING; a profile
PUT preserves the id/status projection of the whole members table; and under
every modelled mutating operation other than the verification decision, each
member of the post-state either carries the status a same-id member had in
the pre-state or is a freshly inserted PENDING member. -/
theorem member_status_lifecycle :
    (∀ (db : DB) (p : MemberIn) (mid now : String) (db' : DB) (m : Member),
      create_member db p mid now = .ok (db', m) →
      m.status = .PENDING ∧ db' = { db with members := db.members ++ [m] }) ∧
    (∀ (db : DB) (mid : String) (p : MemberIn) (now : String) (db' : DB)
        (m : Member),
      update_member db mid p now = .ok (db', m) →
      db'.members.map (fun x => (x.id, x.status)) =
        db.members.map (fun x => (x.id, x.status))) ∧
    (∀ (db : DB) (op : Op), op.isDecision = false →
      ∀ m' ∈ (applyDB db op).members,
        m'.status = .PENDING ∨
          ∃ m ∈ db.members, m.id = m'.id ∧ m.status = m'.status) := by
  refine ⟨?_, ?_, ?_⟩
  · exact fun db p mid now db' m h => create_member_ok_inv h
  · intro db mid p now db' m h
    rw [update_member_ok_inv h]
    dsimp only
    rw [List.map_map]
    refine List.map_congr_left ?_
    intro x _
    simp [Function.comp, memberProfileUpd_id, memberProfileUpd_status]
  · intro db op hdec m' hm'
    cases op with
    | opCreateMember p mid now =>
      revert hm'
      simp only [applyDB]
      cases hr : create_member db p mid now with
      | error e => exact fun hm' => Or.inr ⟨m', hm', rfl, rfl⟩
      | ok res =>
        obtain ⟨db', m⟩ := res
        obtain ⟨hpend, hdb⟩ := create_member_ok_inv hr
        rw [hdb]
        intro hm'
        rcases List.mem_append.mp hm' with hmem | hnew
        · exact Or.inr ⟨m', hmem, rfl, rfl⟩
        · rcases List.mem_singleton.mp hnew with rfl
          exact Or.inl hpend
    | opUpdateMember mid p now =>
      revert hm'
      simp only [applyDB]
      cases hr : update_member db mid p now with
      | error e => exact fun hm' => Or.inr ⟨m', hm', rfl, rfl⟩
      | ok res =>
        obtain ⟨db', m⟩ := res
        rw [update_member_ok_inv hr]
        intro hm'
        obtain ⟨x, hx, hxm⟩ := List.mem_map.mp hm'
        refine Or.inr ⟨x, hx, ?_, ?_⟩
        · rw [← hxm, memberProfileUpd_id]
        · rw [← hxm, memberProfileUpd_status]
    | opDeleteMember mid =>
      revert hm'
      simp only [applyDB]
      cases hr : delete_member db mid with
      | error e => exact fun hm' => Or.inr ⟨m', hm', rfl, rfl⟩
      | ok db2 =>
        rw [delete_member_ok_inv hr]
        intro hm'
        exact Or.inr ⟨m', (List.mem_filter.mp hm').1, rfl, rfl⟩
    | opVerifyMember mid p staff vid now =>
      exact absurd hdec (by simp [Op.isDecision])
    | opCreateProduct p pid now =>
      revert hm'
      simp only [applyDB]
      cases hr : create_product db p pid now with
      | error e => exact fun hm' => Or.inr ⟨m', hm', rfl, rfl⟩
      | ok res =>
        obtain ⟨db', x⟩ := res
        rw [create_product_ok_inv hr]
        exact fun hm' => Or.inr ⟨m', hm', rfl, rfl⟩
    | opUpdateProduct pid p now =>
      revert hm'
      simp only [applyDB]
      cases hr : update_product db pid p now with
      | error e => exact fun hm' => Or.inr ⟨m', hm', rfl, rfl⟩
      | ok res =>
        obtain ⟨db', x⟩ := res
        rw [update_product_ok_inv hr]
        exact fun hm' => Or.inr ⟨m', hm', rfl, rfl⟩
    | opDeleteProduct pid =>
      revert hm'
      simp only [applyDB]
      cases hr : delete_product db pid with
      | error e => exact fun hm' => Or.inr ⟨m', hm', rfl, rfl⟩
      | ok db2 =>
        rw [delete_product_ok_inv hr]
        exact fun hm' => Or.inr ⟨m', hm', rfl, rfl⟩
    | opCreateSupplier p sid now =>
      revert hm'
      simp only [applyDB]
      cases hr : create_supplier db p sid now with
      | error e => exact fun hm' => Or.inr ⟨m', hm', rfl, rfl⟩
      | ok res =>
        obtain ⟨db', x⟩ := res
        rw [create_supplier_ok_inv hr]
        exact fun hm' => Or.inr ⟨m', hm', rfl, rfl⟩
    | opUpdateSupplier sid p now =>
      revert hm'
      simp only [applyDB]
      cases hr : update_supplier db sid p now with
      | error e => exact fun hm' => Or.inr ⟨m', hm', rfl, rfl⟩
      | ok res =>
        obtain ⟨db', x⟩ := res
        rw [update_supplier_ok_inv hr]
        exact fun hm' => Or.inr ⟨m', hm', rfl, rfl⟩
    | opDeleteSupplier sid =>
      revert hm'
      simp only [applyDB]
      cases hr : delete_supplier db sid with
      | error e => exact fun hm' => Or.inr ⟨m', hm', rfl, rfl⟩
      | ok db2 =>
        rw [delete_supplier_ok_inv hr]
        exact fun hm' => Or.inr ⟨m', hm', rfl, rfl⟩
    | opCreateMovement kind p staff mvid now =>
      revert hm'
      simp only [applyDB]
      cases hr : create_inventory_movement db kind p staff mvid now with
      | error e => exact fun hm' => Or.inr ⟨m', hm', rfl, rfl⟩
      | ok res =>
        obtain ⟨db', mv⟩ := res
        rw [create_inventory_movement_ok_inv hr]
        exact fun hm' => Or.inr ⟨m', hm', rfl, rfl⟩
    | opCreateOrder p staff oid itemId t =>
      revert hm'
      simp only [applyDB]
      cases hr : create_order db p staff oid itemId t with
      | error e => exact fun hm' => Or.inr ⟨m', hm', rfl, rfl⟩
      | ok res =>
        obtain ⟨db', o, rows⟩ := res
        obtain ⟨-, -, -, -, -, -, -, hdb⟩ := create_order_ok_inv hr
        rw [hdb]
        exact fun hm' => Or.inr ⟨m', hm', rfl, rfl⟩
    | opFinalizeOrder oid staff movementId now =>
      revert hm'
      simp only [applyDB]
      cases hr : finalize_order db oid staff movementId now with
      | error e => exact fun hm' => Or.inr ⟨m', hm', rfl, rfl⟩
      | ok res =>
        obtain ⟨db', oFin⟩ := res
        obtain ⟨ord, -, -, -, -, -, hdb⟩ := finalize_order_ok_inv hr
        rw [hdb]
        exact fun hm' => Or.inr ⟨m', hm', rfl, rfl⟩

/-- Witness for C7: a concrete creation yields a PENDING member, and a
concrete profile PUT on the PENDING member `M2` preserves every status. -/
theorem member_status_lifecycle_witness :
    (exMemberNew.status = .PENDING ∧
      exDBPendingNew =
        { exDBPending with members := exDBPending.members ++ [exMemberNew] }) ∧
    (exDBPending2.members.map (fun x => (x.id, x.status)) =
      exDBPending.members.map (fun x => (x.id, x.status))) ∧
    (∀ m' ∈ (applyDB exDBPending (.opUpdateMember "M2" exMemberIn "t6")).members,
      m'.status = .PENDING ∨
        ∃ m ∈ exDBPending.members, m.id = m'.id ∧ m.status = m'.status) :=
  ⟨member_status_lifecycle.1 exDBPending exMemberIn "M9" "t5" exDBPendingNew
      exMemberNew rfl,
   member_status_lifecycle.2.1 exDBPending "M2" exMemberIn "t6" exDBPending2
      exMemberP2 rfl,
   member_status_lifecycle.2.2 exDBPending
      (.opUpdateMember "M2" exMemberIn "t6") rfl⟩

/-! ## C8 — order invariant and forward-only transitions -/

/-- Every modelled operation other than order creation and order finalization
leaves the orders table untouched. -/
theorem applyDB_orders_eq (db : DB) (op : Op)
    (hco : ∀ p staff oid itemId t, op ≠ .opCreateOrder p staff oid itemId t)
    (hfo : ∀ oid staff movementId now,
      op ≠ .opFinalizeOrder oid staff movementId now) :
    (applyDB db op).orders = db.orders := by
  cases op with
  | opCreateMember p mid now =>
    simp only [applyDB]
    cases hr : create_member db p mid now with
    | error e => rfl
    | ok res =>
      obtain ⟨db', m⟩ := res
      rw [(create_member_ok_inv hr).2]
  | opUpdateMember mid p now =>
    simp only [applyDB]
    cases hr : update_member db mid p now with
    | error e => rfl
    | ok res =>
      obtain ⟨db', m⟩ := res
      rw [update_member_ok_inv hr]
  | opDeleteMember mid =>
    simp only [applyDB]
    cases hr : delete_member db mid with
    | error e => rfl
    | ok db2 => rw [delete_member_ok_inv hr]
  | opVerifyMember mid p staff vid now =>
    simp only [applyDB]
    cases hr : verify_member db mid p staff vid now with
    | error e => rfl
    | ok res =>
      obtain ⟨db', m⟩ := res
      obtain ⟨ver, hdb⟩ := verify_member_ok_inv hr
      rw [hdb]
  | opCreateProduct p pid now =>
    simp only [applyDB]
    cases hr : create_product db p pid now with
    | error e => rfl
    | ok res =>
      obtain ⟨db', x⟩ := res
      rw [create_product_ok_inv hr]
  | opUpdateProduct pid p now =>
    simp only [applyDB]
    cases hr : update_product db pid p now with
    | error e => rfl
    | ok res =>
      obtain ⟨db', x⟩ := res
      rw [update_product_ok_inv hr]
  | opDeleteProduct pid =>
    simp only [applyDB]
    cases hr : delete_product db pid with
    | error e => rfl
    | ok db2 => rw [delete_product_ok_inv hr]
  | opCreateSupplier p sid now =>
    simp only [applyDB]
    cases hr : create_supplier db p sid now with
    | error e => rfl
    | ok res =>
      obtain ⟨db', x⟩ := res
      rw [create_supplier_ok_inv hr]
  | opUpdateSupplier sid p now =>
    simp only [applyDB]
    cases hr : update_supplier db sid p now with
    | error e => rfl
    | ok res =>
      obtain ⟨db', x⟩ := res
      rw [update_supplier_ok_inv hr]
  | opDeleteSupplier sid =>
    simp only [applyDB]
    cases hr : delete_supplier db sid with
    | error e => rfl
    | ok db2 => rw [delete_supplier_ok_inv hr]
  | opCreateMovement kind p staff mvid now =>
    simp only [applyDB]
    cases hr : create_inventory_movement db kind p staff mvid now with
    | error e => rfl
    | ok res =>
      obtain ⟨db', mv⟩ := res
      rw [create_inventory_movement_ok_inv hr]
  | opCreateOrder p staff oid itemId t =>
    exact absurd rfl (hco p staff oid itemId t)
  | opFinalizeOrder oid staff movementId now =>
    exact absurd rfl (hfo oid staff movementId now)

/-- C8: every modelled operation preserves the invariant `completed_at` set
iff `status = COMPLETED`; and — under the schema's primary-key uniqueness of
order ids and the uuid-freshness of a newly inserted order id — no operation
moves a COMPLETED order back to PLACED or touches its `completed_at`:
transitions only run forward. -/
theorem order_state_machine :
    (∀ (db : DB) (op : Op), OrdersConsistent db →
      OrdersConsistent (applyDB db op)) ∧
    (∀ (db : DB) (op : Op), (db.orders.map Order.id).Nodup →
      op.freshOrderId db →
      ∀ o ∈ db.orders, o.status = .COMPLETED →
        ∀ o' ∈ (applyDB db op).orders, o'.id = o.id →
          o'.status = .COMPLETED ∧ o'.completed_at = o.completed_at) := by
  constructor
  · intro db op hinv
    unfold OrdersConsistent at hinv ⊢
    cases op
    case opCreateOrder p staff oid itemId t =>
      simp only [applyDB]
      cases hr : create_order db p staff oid itemId t with
      | error e => exact hinv
      | ok res =>
        obtain ⟨db', onew, rows⟩ := res
        obtain ⟨hpl, hnone, -, -, -, -, -, hdb⟩ := create_order_ok_inv hr
        rw [hdb]
        intro o2 ho2
        rcases List.mem_append.mp ho2 with h2 | h2
        · exact hinv o2 h2
        · rcases List.mem_singleton.mp h2 with rfl
          rw [hpl, hnone]
          simp
    case opFinalizeOrder oid staff movementId now =>
      simp only [applyDB]
      cases hr : finalize_order db oid staff movementId now with
      | error e => exact hinv
      | ok res =>
        obtain ⟨db', oFin⟩ := res
        obtain ⟨ord, -, -, -, -, -, hdb⟩ := finalize_order_ok_inv hr
        rw [hdb]
        intro o2 ho2
        obtain ⟨x, hx, hxo⟩ := List.mem_map.mp ho2
        subst hxo
        by_cases hid : x.id == oid
        · unfold orderCompleteUpd
          simp [hid]
        · rw [orderCompleteUpd_of_ne hid]
          exact hinv x hx
    all_goals
      rw [applyDB_orders_eq db _ (fun _ _ _ _ _ h => Op.noConfusion h)
        (fun _ _ _ _ h => Op.noConfusion h)]
      exact hinv
  · intro db op hnd hfresh o ho hoc o' ho' hid
    cases op
    case opCreateOrder p staff oid itemId t =>
      simp only [Op.freshOrderId] at hfresh
      revert ho'
      simp only [applyDB]
      cases hr : create_order db p staff oid itemId t with
      | error e =>
        intro ho'
        obtain rfl := eq_of_nodup_key hnd ho' ho hid
        exact ⟨hoc, rfl⟩
      | ok res =>
        obtain ⟨db', onew, rows⟩ := res
        obtain ⟨-, -, hoid, -, -, -, -, hdb⟩ := create_order_ok_inv hr
        rw [hdb]
        intro ho'
        rcases List.mem_append.mp ho' with h2 | h2
        · obtain rfl := eq_of_nodup_key hnd h2 ho hid
          exact ⟨hoc, rfl⟩
        · rcases List.mem_singleton.mp h2 with rfl
          have hooid : o.id = oid := by rw [← hid, hoid]
          exact absurd hooid (hfresh o ho)
    case opFinalizeOrder oid staff movementId now =>
      revert ho'
      simp only [applyDB]
      cases hr : finalize_order db oid staff movementId now with
      | error e =>
        intro ho'
        obtain rfl := eq_of_nodup_key hnd ho' ho hid
        exact ⟨hoc, rfl⟩
      | ok res =>
        obtain ⟨db', oFin⟩ := res
        obtain ⟨ord, hordf, hpl, -, -, -, hdb⟩ := finalize_order_ok_inv hr
        rw [hdb]
        intro ho'
        obtain ⟨x, hx, hxo⟩ := List.mem_map.mp ho'
        by_cases hxid : x.id == oid
        · have hordmem := List.mem_of_find?_eq_some hordf
          have hordid : (ord.id == oid) = true := by
            simpa using List.find?_some hordf
          have ho'id : o'.id = x.id := by
            rw [← hxo, orderCompleteUpd_id]
          have hooid : o.id = oid := by
            rw [← hid, ho'id, eq_of_beq hxid]
          have hoeq : o = ord := eq_of_nodup_key hnd ho hordmem
            (by rw [hooid, eq_of_beq hordid])
          rw [hoeq, hpl] at hoc
          simp at hoc
        · rw [orderCompleteUpd_of_ne hxid] at hxo
          subst hxo
          obtain rfl := eq_of_nodup_key hnd hx ho hid
          exact ⟨hoc, rfl⟩
    all_goals
      rw [applyDB_orders_eq db _ (fun _ _ _ _ _ h => Op.noConfusion h)
        (fun _ _ _ _ h => Op.noConfusion h)] at ho'
      obtain rfl := eq_of_nodup_key hnd ho' ho hid
      exact ⟨hoc, rfl⟩

/-- Witness for C8: a second finalization attempt on the already-completed
order `O1` leaves the invariant intact and the completed order untouched. -/
theorem order_state_machine_witness :
    OrdersConsistent
      (applyDB exDBOrderDone (.opFinalizeOrder "O1" "s3" exMGen "t2")) ∧
    (∀ o ∈ exDBOrderDone.orders, o.status = .COMPLETED →
      ∀ o' ∈ (applyDB exDBOrderDone
          (.opFinalizeOrder "O1" "s3" exMGen "t2")).orders,
        o'.id = o.id → o'.status = .COMPLETED ∧
          o'.completed_at = o.completed_at) :=
  ⟨order_state_machine.1 exDBOrderDone (.opFinalizeOrder "O1" "s3" exMGen "t2")
      (by unfold OrdersConsistent; decide),
   order_state_machine.2 exDBOrderDone (.opFinalizeOrder "O1" "s3" exMGen "t2")
      (by decide) trivial⟩

/-! ## C9 — one audit event per mutating request, regardless of outcome -/

/-- C9: for every mutating request (method in `WRITE_METHODS`), whatever the
wrapped handler returns — domain success or a domain error surfaced as an
error response, both being just a status code here — the middleware appends
exactly one audit event carrying the resolved actor id (`parse_staff_id`),
the method-derived event type, the request path, and a snapshot of the
response status code, the query parameters and the inbound body truncated to
the fixed 3000-character bound; the response status code and every domain
table are passed through unchanged, so the audit write never alters or rolls
back the domain outcome. -/
theorem audit_middleware_contract (decodeJwt : String → Option JwtClaims)
    (req : Request) (handler : DB → DB × Nat) (db : DB) (event_id now : String)
    (hw : req.method ∈ WRITE_METHODS) :
    ∃ ev : AuditEvent,
      (audit_write_middleware decodeJwt req handler db event_id now).1.audit_events =
        (handler db).1.audit_events ++ [ev] ∧
      ev.actor_type = "STAFF" ∧
      ev.actor_id = some (parse_staff_id decodeJwt req) ∧
      ev.event_type = "HTTP_" ++ req.method ∧
      ev.entity_type = "endpoint" ∧
      ev.entity_id = req.path ∧
      ev.event_data = { status_code := (handler db).2, query := req.query,
                        body := req.body.take 3000 } ∧
      (audit_write_middleware decodeJwt req handler db event_id now).2 =
        (handler db).2 ∧
      (audit_write_middleware decodeJwt req handler db event_id now).1.members =
        (handler db).1.members ∧
      (audit_write_middleware decodeJwt req handler db event_id now).1.member_verifications =
        (handler db).1.member_verifications ∧
      (audit_write_middleware decodeJwt req handler db event_id now).1.suppliers =
        (handler db).1.suppliers ∧
      (audit_write_middleware decodeJwt req handler db event_id now).1.products =
        (handler db).1.products ∧
      (audit_write_middleware decodeJwt req handler db event_id now).1.inventory_movements =
        (handler db).1.inventory_movements ∧
      (audit_write_middleware decodeJwt req handler db event_id now).1.orders =
        (handler db).1.orders ∧
      (audit_write_middleware decodeJwt req handler db event_id now).1.order_items =
        (handler db).1.order_items := by
  refine ⟨{ id := event_id, actor_type := "STAFF",
            actor_id := some (parse_staff_id decodeJwt req),
            event_type := "HTTP_" ++ req.method, entity_type := "endpoint",
            entity_id := req.path,
            event_data := { status_code := (handler db).2, query := req.query,
                            body := req.body.take 3000 },
            occurred_at := now, created_at := now },
    ?_, rfl, rfl, rfl, rfl, rfl, rfl, ?_, ?_, ?_, ?_, ?_, ?_, ?_, ?_⟩ <;>
  simp [audit_write_middleware, hw]

/-- Witness for C9: a concrete POST with an explicit `x-staff-id` header and a
handler returning a domain-error status 400 still yields exactly one appended
audit event and an unchanged response. -/
theorem audit_middleware_contract_witness :
    ∃ ev : AuditEvent,
      (audit_write_middleware exDecode exReq exHandler exDBProd "E1" "t7").1.audit_events =
        (exHandler exDBProd).1.audit_events ++ [ev] ∧
      ev.actor_type = "STAFF" ∧
      ev.actor_id = some (parse_staff_id exDecode exReq) ∧
      ev.event_type = "HTTP_" ++ exReq.method ∧
      ev.entity_type = "endpoint" ∧
      ev.entity_id = exReq.path ∧
      ev.event_data = { status_code := (exHandler exDBProd).2,
                        query := exReq.query, body := exReq.body.take 3000 } ∧
      (audit_write_middleware exDecode exReq exHandler exDBProd "E1" "t7").2 =
        (exHandler exDBProd).2 ∧
      (audit_write_middleware exDecode exReq exHandler exDBProd "E1" "t7").1.members =
        (exHandler exDBProd).1.members ∧
      (audit_write_middleware exDecode exReq exHandler exDBProd "E1" "t7").1.member_verifications =
        (exHandler exDBProd).1.member_verifications ∧
      (audit_write_middleware exDecode exReq exHandler exDBProd "E1" "t7").1.suppliers =
        (exHandler exDBProd).1.suppliers ∧
      (audit_write_middleware exDecode exReq exHandler exDBProd "E1" "t7").1.products =
        (exHandler exDBProd).1.products ∧
      (audit_write_middleware exDecode exReq exHandler exDBProd "E1" "t7").1.inventory_movements =
        (exHandler exDBProd).1.inventory_movements ∧
      (audit_write_middleware exDecode exReq exHandler exDBProd "E1" "t7").1.orders =
        (exHandler exDBProd).1.orders ∧
      (audit_write_middleware exDecode exReq exHandler exDBProd "E1" "t7").1.order_items =
        (exHandler exDBProd).1.order_items :=
  audit_middleware_contract exDecode exReq exHandler exDBProd "E1" "t7"
    (by decide)

end DispensaryHub
